import Mathlib

/-!
Verification of the flight-runner coordination substrate.

This file gives a shallow embedding of the coordination components of the
flight-runner repository and proves (or refutes) the specified properties
about them:

* `EventReporter.flush` / `EventReporter.sendEvent` (src/src/system-prompt.ts,
  class `EventReporter`): modelled by `flushRun`, a delivery pass over the
  event queue driven by an oracle of per-attempt outcomes.
* `writeStatus` / `updateStatus` / `main` of flightplan-setup
  (src/unnamed/part_004): modelled by `writeStatusOps` (the file-system
  operations a status write performs) and `setupMainExit` (the process
  outcome as a function of which writes throw and whether the setup body
  fails).
* `QueueClient.fetchPendingMessages` (src/unnamed/part_002): modelled by
  `fetchPendingMessages` over an oracle describing the HTTP exchange.
* `runAgent` (src/unnamed/part_005): modelled by `runAgentTrace`, the list
  of externally visible actions the coordinator performs, driven by oracles
  for the abort flag and the successive queue fetches.
* the SetupWaiter loop (src/src/setup/wait.ts): modelled by `waitLoop` over
  oracles for the successive status-file reads and the clock.
* `AbortWatcher` (src/src/agent.ts): modelled by the `tick` / `runWatcher`
  state machine over an oracle of file-existence and unlink-failure bits.
-/

namespace FlightRunner

/-! ## EventReporter delivery pass (src/src/system-prompt.ts, EventReporter) -/

/-- Outcome of one `sendEvent` attempt, as seen by the `try`/`catch` in
`EventReporter.sendEvent`:

* `success`: `fetch` resolved and `response.ok` was true;
* `httpError`: `fetch` resolved, `response.ok` was false and the body read
  succeeded — the code only logs, the event is not re-queued;
* `transportError`: the `try` block threw (network failure, or a failure
  while reading the error body) — the `catch` re-queues the event with
  `unshift`. -/
inductive SendOutcome where
  | success
  | httpError
  | transportError
deriving DecidableEq, Repr

/-- Model of one delivery pass of `EventReporter.flush`: while the queue is
non-empty, `shift` the head event and run `sendEvent` on it, consuming the
next oracle outcome.  On `success` the event is delivered; on `httpError`
the event is dropped (the code only logs) and the loop continues; on
`transportError` the event is `unshift`-ed back onto the head and the loop
continues (it immediately retries the same event).  When the oracle list is
exhausted the pass is still pending on an unresolved send; the remaining
queue is returned.  Result: (events delivered in order, remaining queue). -/
def flushRun {α : Type} : List SendOutcome → List α → List α × List α
  | _, [] => ([], [])
  | [], q => ([], q)
  | SendOutcome.success :: os, e :: q =>
      let r := flushRun os q
      (e :: r.1, r.2)
  | SendOutcome.httpError :: os, _ :: q => flushRun os q
  | SendOutcome.transportError :: os, e :: q => flushRun os (e :: q)

/-- Follows the spec's words, for comparison with `flushRun`: on a
non-success response or transport error, push the event back onto the head
of the queue and stop the current pass without attempting further sends. -/
def flushRunSpecModel {α : Type} : List SendOutcome → List α → List α × List α
  | _, [] => ([], [])
  | [], q => ([], q)
  | SendOutcome.success :: os, e :: q =>
      let r := flushRunSpecModel os q
      (e :: r.1, r.2)
  | _ :: _, e :: q => ([], e :: q)

/-! ## Setup status file (src/unnamed/part_004) -/

/-- File-system operations, at the granularity the atomicity claim needs. -/
inductive FsOp where
  | writeFileOp (path : String) (contents : String)
  | renameOp (src : String) (dst : String)
deriving DecidableEq, Repr

/-- Target path of the status document: `join(workspace, ".flightplan-status.json")`. -/
def statusFilePath (workspace : String) : String :=
  workspace ++ "/.flightplan-status.json"

/-- File-system operations performed by `writeStatus` (part_004, lines
380-383): a single `writeFile` of the serialized JSON directly to the
target path. -/
def writeStatusOps (workspace : String) (json : String) : List FsOp :=
  [FsOp.writeFileOp (statusFilePath workspace) json]

/-- Follows the spec's words, for comparison with `writeStatusOps`: an
atomic replace writes the serialized document to a temporary path and then
renames it over the target. -/
def isAtomicReplace (target : String) (ops : List FsOp) : Prop :=
  ∃ tmp contents, tmp ≠ target ∧
    ops = [FsOp.writeFileOp tmp contents, FsOp.renameOp tmp target]

/-- Model of one `writeStatus` call: `Except.error` when the underlying
`writeFile` rejects. -/
def writeStatusRun (throws : Bool) : Except Unit Unit :=
  if throws then Except.error () else Except.ok ()

/-- Model of `updateStatus` (part_004, lines 143-147):
`writeStatus(...).catch(() => ...)` — the rejection is swallowed, so the
call never errors. -/
def updateStatusRun (throws : Bool) : Except Unit Unit :=
  match writeStatusRun throws with
  | Except.ok _ => Except.ok ()
  | Except.error _ => Except.ok ()

/-- The sequence of `updateStatus` progress writes performed during the
`try` block, each given its own throw bit.  (In the source they interleave
with the provisioning work; since each is swallowed, only their count is
visible to the control flow.) -/
def stepWrites : List Bool → Except Unit Unit
  | [] => Except.ok ()
  | b :: bs =>
    match updateStatusRun b with
    | Except.ok _ => stepWrites bs
    | Except.error e => Except.error e

/-- Oracle describing one run of the setup `main` (part_004, lines 96-294):
which progress writes throw, whether the provisioning body itself fails,
and whether the final `ready` write and the `failed` write in the `catch`
block throw. -/
structure SetupScript where
  stepWritesThrow : List Bool
  bodySucceeds : Bool
  readyWriteThrows : Bool
  failWriteThrows : Bool
deriving DecidableEq, Repr

/-- The `try` block of setup `main`: progress writes (swallowed), the
provisioning body, then — on the success path — the final `ready` write at
line 254, which is a bare `await writeStatus(...)` with no `.catch`. -/
def setupTryBody (s : SetupScript) : Except Unit Unit :=
  match stepWrites s.stepWritesThrow with
  | Except.error e => Except.error e
  | Except.ok _ =>
    if s.bodySucceeds then writeStatusRun s.readyWriteThrows
    else Except.error ()

/-- Exit code of setup `main`: 0 when the `try` block completes, otherwise
the `catch` block writes the `failed` status (swallowed via `.catch`) and
exits 1. -/
def setupMainExit (s : SetupScript) : Nat :=
  match setupTryBody s with
  | Except.ok _ => 0
  | Except.error _ =>
    match updateStatusRun s.failWriteThrows with
    | Except.ok _ => 1
    | Except.error _ => 1

/-! ## QueueClient (src/unnamed/part_002) -/

/-- Message behaviors, from the `QueuedMessage` interface. -/
inductive Behavior where
  | steer
  | followUp
  | abort
deriving DecidableEq, Repr

/-- A queued work item, from the `QueuedMessage` interface (part_002,
lines 15-22). -/
structure QueuedMessage where
  id : String
  text : String
  behavior : Behavior
  senderId : String
  senderName : String
  createdAt : String
deriving DecidableEq, Repr

/-- Check performed by the fetch API's `response.ok`: the status code is in
the 2xx range. -/
def respOk (status : Nat) : Bool :=
  200 ≤ status && status < 300

/-- A resolved HTTP response to the queue GET: its status code, and the
result of `response.json()` (which rejects on a malformed body). -/
structure GatewayResponse where
  status : Nat
  jsonBody : Except Unit (List QueuedMessage)
deriving Repr

/-- Model of `QueueClient.fetchPendingMessages` (part_002, lines 53-83):
the whole exchange sits in a `try` whose `catch` returns `[]`.  A transport
error (`fetchResult = Except.error`) is caught; a non-2xx response returns
`[]` after logging; a successful response returns `data.messages`, and a
`response.json()` rejection is caught and yields `[]`. -/
def fetchPendingMessages (fetchResult : Except Unit GatewayResponse) : List QueuedMessage :=
  match fetchResult with
  | Except.error _ => []
  | Except.ok resp =>
    if respOk resp.status then
      match resp.jsonBody with
      | Except.ok msgs => msgs
      | Except.error _ => []
    else []

/-! ## Coordinator loop (src/unnamed/part_005, runAgent) -/

/-- The `streamingBehavior` option passed to `session.prompt` in the poll
loop (part_005, lines 357-359): the source expression is
`msg.behavior === "steer" ? "steer" : "followUp"`. -/
inductive StreamBehavior where
  | steer
  | followUp
deriving DecidableEq, Repr

/-- Translation of `msg.behavior === "steer" ? "steer" : "followUp"`. -/
def streamingBehaviorOf : Behavior → StreamBehavior
  | Behavior.steer => StreamBehavior.steer
  | _ => StreamBehavior.followUp

/-- Externally visible actions of `runAgent`, in program order: reporter
system messages, the `agent:start` report, session creation, queue
acknowledgments, prompts handed to the session (with their
`streamingBehavior`), a `session.abort()` call, and the `agent:end`
report. -/
inductive Action where
  | systemMessage
  | agentStartEvent
  | sessionCreated
  | ackDelivered (id : String)
  | promptInitial
  | promptMsg (id : String) (sb : StreamBehavior)
  | ackProcessed (id : String)
  | sessionAbortCall
  | agentEndEvent
deriving DecidableEq, Repr

/-- Actions emitted when the poll loop hands one fetched message to the
session (part_005, lines 339-364): `markDelivered(msg.id)` then
`session.prompt(formatted, streamingBehavior)`.  No branch of this code
calls `session.abort()`; the `abort` behavior falls into the `followUp`
arm of the ternary. -/
def handleMsg (m : QueuedMessage) : List Action :=
  [Action.ackDelivered m.id, Action.promptMsg m.id (streamingBehaviorOf m.behavior)]

/-- The inner `for` of the poll loop over one fetched batch.  `abortFlag`
is the oracle for successive reads of `abortWatcher.wasAborted` (index `t`
is the read counter); the read guards each message (`if wasAborted break`
comes before `markDelivered`).  Returns (next read index, accumulated
`processedMessageIds`, emitted actions); an id joins the accumulator only
after its message was delivered and prompted. -/
def processBatch (abortFlag : Nat → Bool) :
    List QueuedMessage → Nat → List String → Nat × List String × List Action
  | [], t, acc => (t, acc, [])
  | m :: rest, t, acc =>
    if abortFlag t then (t + 1, acc, [])
    else
      let r := processBatch abortFlag rest (t + 1) (acc ++ [m.id])
      (r.1, r.2.1, handleMsg m ++ r.2.2)

/-- The `while (!abortWatcher.wasAborted)` poll loop (part_005, lines
326-371).  `batches` is the oracle of successive `fetchPendingMessages`
results; once it is exhausted further fetches return `[]`, which exits the
loop (with a "no more queued messages" system message).  Returns the final
`processedMessageIds` and the emitted actions; the deferred
`markProcessed` calls for the accumulator happen after the loop and are
appended by `runAgentTrace`. -/
def pollLoop (abortFlag : Nat → Bool) :
    List (List QueuedMessage) → Nat → List String → List String × List Action
  | [], t, acc =>
    if abortFlag t then (acc, []) else (acc, [Action.systemMessage])
  | b :: bs, t, acc =>
    if abortFlag t then (acc, [])
    else if b.isEmpty then (acc, [Action.systemMessage])
    else
      let r := processBatch abortFlag b (t + 1) acc
      let rest := pollLoop abortFlag bs r.1 r.2.1
      (rest.1, Action.systemMessage :: (r.2.2 ++ rest.2))

/-- Action trace of `runAgent` (part_005, lines 85-400).  Two system
messages precede the initial fetch; if the initial fetch is empty the
function logs and returns (no `agent:start`, no session, no
acknowledgments).  Otherwise: log, report `agent:start`, create the
session, mark every initial message delivered, run the combined initial
prompt, mark every initial message processed, run the poll loop, mark the
accumulated poll-loop ids processed, and report `agent:end`. -/
def runAgentTrace (init : List QueuedMessage) (abortFlag : Nat → Bool)
    (batches : List (List QueuedMessage)) : List Action :=
  if init.isEmpty then
    [Action.systemMessage, Action.systemMessage, Action.systemMessage]
  else
    [Action.systemMessage, Action.systemMessage, Action.systemMessage,
      Action.agentStartEvent, Action.sessionCreated] ++
    init.map (fun m => Action.ackDelivered m.id) ++
    [Action.promptInitial] ++
    init.map (fun m => Action.ackProcessed m.id) ++
    (pollLoop abortFlag batches 0 []).2 ++
    (pollLoop abortFlag batches 0 []).1.map Action.ackProcessed ++
    [Action.agentEndEvent]

/-- Scanning check that every `ackProcessed id` in a trace is preceded by
an `ackDelivered id` for the same id: `seen` accumulates the delivered
ids. -/
def seenOk : List Action → List String → Bool
  | [], _ => true
  | Action.ackDelivered id :: rest, seen => seenOk rest (id :: seen)
  | Action.ackProcessed id :: rest, seen => decide (id ∈ seen) && seenOk rest seen
  | _ :: rest, seen => seenOk rest seen

/-- The delivered ids a trace adds to an accumulator, in the order `seenOk`
collects them. -/
def deliveredAcc : List Action → List String → List String
  | [], seen => seen
  | Action.ackDelivered id :: rest, seen => deliveredAcc rest (id :: seen)
  | _ :: rest, seen => deliveredAcc rest seen

/-! ## SetupWaiter (src/src/setup/wait.ts) -/

/-- Status field values of the status document. -/
inductive WaitStatus where
  | running
  | ready
  | failed
deriving DecidableEq, Repr

/-- A provisioned service as recorded in the status document. -/
structure ServiceInstance where
  name : String
  url : String
  port : Nat
deriving DecidableEq, Repr

/-- The parts of the parsed status document the wait loop inspects. -/
structure StatusDoc where
  status : WaitStatus
  step : Option String
  error : Option String
  services : List ServiceInstance
deriving DecidableEq, Repr

/-- Result of one poll iteration's file access: `missing` when `access`,
`readFile` or `JSON.parse` throws (the `catch` swallows it and the loop
keeps waiting), otherwise the parsed document. -/
inductive ReadResult where
  | missing
  | doc (d : StatusDoc)
deriving DecidableEq, Repr

/-- Terminal outcome of the wait loop, carrying what the code reports:
service instances on `ready`, the carried error string on `failed`. -/
inductive WaitOutcome where
  | readyOutcome (services : List ServiceInstance)
  | failedOutcome (error : Option String)
  | timedOut
deriving DecidableEq, Repr

/-- Exit code mapping of `wait.ts` `main`: `process.exit(0)` on ready,
`process.exit(1)` on failed, `process.exit(2)` after the timeout. -/
def exitCode : WaitOutcome → Nat
  | WaitOutcome.readyOutcome _ => 0
  | WaitOutcome.failedOutcome _ => 1
  | WaitOutcome.timedOut => 2

/-- The polling loop of `wait.ts` `main` (lines 72-119).  `reads k` is the
k-th read of the status file, `clock k` the value of `Date.now()` at the
k-th loop-condition check, `start` the initial `Date.now()`, `timeoutMs`
the configured timeout.  The loop runs while `clock k - start < timeoutMs`;
a `ready` document exits with the services, a `failed` document exits with
the carried error, anything else polls again.  `fuel` bounds the number of
modelled iterations: `none` means the bound was hit while the loop would
still be polling. -/
def waitLoop (reads : Nat → ReadResult) (clock : Nat → Nat)
    (start timeoutMs : Nat) : Nat → Nat → Option (Nat × WaitOutcome)
  | 0, k =>
    if clock k - start < timeoutMs then none
    else some (k, WaitOutcome.timedOut)
  | fuel + 1, k =>
    if clock k - start < timeoutMs then
      match reads k with
      | ReadResult.missing => waitLoop reads clock start timeoutMs fuel (k + 1)
      | ReadResult.doc d =>
        match d.status with
        | WaitStatus.ready => some (k, WaitOutcome.readyOutcome d.services)
        | WaitStatus.failed => some (k, WaitOutcome.failedOutcome d.error)
        | WaitStatus.running => waitLoop reads clock start timeoutMs fuel (k + 1)
    else some (k, WaitOutcome.timedOut)

/-! ## AbortWatcher (src/src/agent.ts, lines 245-296) -/

/-- Observable state of an `AbortWatcher`: whether the interval is still
installed (`intervalId !== null`), the `aborted` flag (`wasAborted`), the
number of `onAbort` invocations so far, and the number of `unlinkSync`
attempts so far. -/
structure WatcherState where
  watching : Bool
  aborted : Bool
  callbackCount : Nat
  unlinkAttempts : Nat
deriving DecidableEq, Repr

/-- State right after `start(onAbort)` installs the interval. -/
def startState : WatcherState :=
  { watching := true, aborted := false, callbackCount := 0, unlinkAttempts := 0 }

/-- One firing of the interval callback.  `fileExists` is what
`existsSync(ABORT_FILE)` returns at this tick, `unlinkFails` whether
`unlinkSync` would throw.  After `stop()` the interval is cleared so the
body never runs again (modelled by the `watching` short-circuit); the
`aborted` guard makes a second detection a no-op; on detection the code
sets `aborted`, stops polling, attempts the unlink inside a
`try`/`catch` that ignores failure, and invokes `onAbort`. -/
def tick (s : WatcherState) (fileExists unlinkFails : Bool) : WatcherState :=
  if s.watching = false then s
  else if s.aborted then s
  else if fileExists then
    { watching := false, aborted := true,
      callbackCount := s.callbackCount + 1,
      unlinkAttempts := s.unlinkAttempts + 1 }
  else s

/-- Run the watcher over a list of poll ticks; each tick carries the
`(fileExists, unlinkFails)` oracle pair. -/
def runWatcher (s : WatcherState) : List (Bool × Bool) → WatcherState
  | [] => s
  | t :: ts => runWatcher (tick s t.1 t.2) ts

/-! ## Theorems: EventReporter delivery -/

/-- Helper: the events a pass delivers form a sublist of the starting
queue — no event ever overtakes an earlier one among those delivered. -/
theorem flushRun_delivered_sublist {α : Type} (os : List SendOutcome) (q : List α) :
    List.Sublist (flushRun os q).1 q := by
  induction os generalizing q with
  | nil => cases q <;> simp [flushRun]
  | cons o os ih =>
    cases q with
    | nil => simp [flushRun]
    | cons e q =>
      cases o with
      | success => simpa [flushRun] using List.Sublist.cons₂ e (ih q)
      | httpError => simpa [flushRun] using List.Sublist.cons e (ih q)
      | transportError => simpa [flushRun] using ih (e :: q)

/-- C1 counterexample: with queue `[1, 2]`, a non-2xx response on the first
attempt makes the code drop event 1 (it is in neither the delivered list
nor the remaining queue) and continue the pass, delivering event 2; the
spec's push-back-and-stop behavior would instead leave `[1, 2]` queued with
nothing delivered.  A transport error on the first attempt is pushed back
but the pass does not stop either: it retries at once and delivers
event 1. -/
theorem flushRun_ne_spec_on_failure :
    flushRun [SendOutcome.httpError, SendOutcome.success] [1, 2] = ([2], ([] : List Nat)) ∧
    flushRunSpecModel [SendOutcome.httpError, SendOutcome.success] [1, 2] =
      (([] : List Nat), [1, 2]) ∧
    flushRun [SendOutcome.transportError, SendOutcome.success] [1, 2] = ([1], [2]) ∧
    flushRunSpecModel [SendOutcome.transportError, SendOutcome.success] [1, 2] =
      (([] : List Nat), [1, 2]) := by
  decide

/-- C1 (amended): on a transport error the failed event is pushed back onto
the head of the queue and the pass immediately retries it (it does not
stop); on a non-success response the event is logged and dropped and the
pass continues with the next event; delivered events never overtake one
another. -/
theorem flushRun_failure_handling (os : List SendOutcome) (e : Nat) (q : List Nat) :
    flushRun (SendOutcome.transportError :: os) (e :: q) = flushRun os (e :: q) ∧
    flushRun (SendOutcome.httpError :: os) (e :: q) = flushRun os q ∧
    List.Sublist (flushRun os (e :: q)).1 (e :: q) :=
  ⟨rfl, rfl, flushRun_delivered_sublist os (e :: q)⟩

/-- C2 counterexample: event 1's delivery attempt fails with a non-2xx
response; event 1 is never redelivered (it is in neither the delivered
list nor the remaining queue), yet event 2 — enqueued after it — is
delivered.  This also refutes "dropped only after a success response". -/
theorem flushRun_drops_failed_event :
    1 ∉ (flushRun [SendOutcome.httpError, SendOutcome.success] ([1, 2] : List Nat)).1 ∧
    1 ∉ (flushRun [SendOutcome.httpError, SendOutcome.success] ([1, 2] : List Nat)).2 ∧
    2 ∈ (flushRun [SendOutcome.httpError, SendOutcome.success] ([1, 2] : List Nat)).1 := by
  decide

/-- C2 (amended): order-preserving, lose-nothing delivery holds exactly
when no attempt resolves to a non-2xx response: if every outcome is a
success or a transport error, the delivered events followed by the
remaining queue reconstruct the original queue — nothing is dropped or
reordered under transport-error retry. -/
theorem flushRun_preserves_events_without_httpError (os : List SendOutcome) (q : List Nat)
    (h : SendOutcome.httpError ∉ os) :
    (flushRun os q).1 ++ (flushRun os q).2 = q := by
  induction os generalizing q with
  | nil => cases q <;> simp [flushRun]
  | cons o os ih =>
    cases q with
    | nil => simp [flushRun]
    | cons e q =>
      have hos : SendOutcome.httpError ∉ os := fun hm => h (List.mem_cons_of_mem o hm)
      cases o with
      | success => simpa [flushRun] using ih q hos
      | httpError => exact absurd (List.mem_cons_self _ _) h
      | transportError => simpa [flushRun] using ih (e :: q) hos

/-- Witness for `flushRun_preserves_events_without_httpError` at a concrete
run: a transport error followed by a success on queue `[5, 7]`. -/
theorem flushRun_preserves_events_witness :
    (flushRun [SendOutcome.transportError, SendOutcome.success] ([5, 7] : List Nat)).1 ++
      (flushRun [SendOutcome.transportError, SendOutcome.success] ([5, 7] : List Nat)).2 =
      [5, 7] :=
  flushRun_preserves_events_without_httpError _ _ (by decide)

/-! ## Theorems: setup status file -/

/-- C3 counterexample: at a concrete workspace and document, `writeStatus`
performs a single direct `writeFile` to the target path — not a write to a
temporary path followed by a rename. -/
theorem writeStatus_not_atomic_at_input :
    writeStatusOps "/workspace" "doc" =
      [FsOp.writeFileOp "/workspace/.flightplan-status.json" "doc"] ∧
    ¬ isAtomicReplace (statusFilePath "/workspace") (writeStatusOps "/workspace" "doc") := by
  refine ⟨rfl, ?_⟩
  rintro ⟨tmp, c, hne, hops⟩
  have hlen := congrArg List.length hops
  simp [writeStatusOps] at hlen

/-- C3 (amended): every `writeStatus` call writes the serialized document
directly to the target path with a single `writeFile`; no write of the
status document follows the temp-path-then-rename atomic-replace
pattern, so a concurrent reader is not protected against observing a
partially-written document. -/
theorem writeStatus_single_direct_write (workspace json : String) :
    writeStatusOps workspace json = [FsOp.writeFileOp (statusFilePath workspace) json] ∧
    ¬ isAtomicReplace (statusFilePath workspace) (writeStatusOps workspace json) := by
  refine ⟨rfl, ?_⟩
  rintro ⟨tmp, c, hne, hops⟩
  have hlen := congrArg List.length hops
  simp [writeStatusOps] at hlen

/-- Witness for `writeStatus_single_direct_write` at a concrete workspace
and document. -/
theorem writeStatus_single_direct_write_witness :
    writeStatusOps "/ws" "d" = [FsOp.writeFileOp (statusFilePath "/ws") "d"] :=
  (writeStatus_single_direct_write "/ws" "d").1

/-- Helper: the progress writes never error — each `updateStatus` swallows
its rejection. -/
theorem stepWrites_ok (bs : List Bool) : stepWrites bs = Except.ok () := by
  induction bs with
  | nil => rfl
  | cons b bs ih => cases b <;> simp [stepWrites, updateStatusRun, writeStatusRun, ih]

/-- C6 counterexample: with a setup run whose provisioning body succeeds
and whose only throwing write is the final `ready` write, setup exits 1;
with the same run and the write succeeding it exits 0.  The throwing
status write changed setup's outcome from success to failure. -/
theorem readyWrite_failure_changes_outcome :
    setupMainExit ⟨[], true, true, false⟩ = 1 ∧
    setupMainExit ⟨[], true, false, false⟩ = 0 := by
  decide

/-- C6 (amended): the `updateStatus` progress writes and the `failed` write
in the catch block are swallowed and never influence the outcome, but the
final `ready` write is not guarded: setup exits 0 only when the body
succeeds and the ready write does not throw, and exits 1 when the body
fails or the ready write throws. -/
theorem setup_outcome_characterization (s : SetupScript) :
    (∀ b, updateStatusRun b = Except.ok ()) ∧
    setupMainExit s =
      (if s.bodySucceeds then if s.readyWriteThrows then 1 else 0 else 1) := by
  constructor
  · intro b; cases b <;> rfl
  · unfold setupMainExit setupTryBody
    rw [stepWrites_ok]
    cases hu : updateStatusRun s.failWriteThrows <;>
      cases hb : s.bodySucceeds <;> cases hr : s.readyWriteThrows <;>
        simp [writeStatusRun, hb, hr]

/-! ## Theorems: QueueClient -/

/-- C7: `fetchPendingMessages` returns the empty list on a transport error,
on any non-2xx response, and on a malformed body; it returns the fetched
messages array exactly on a 2xx response whose body parses. -/
theorem fetchPendingMessages_error_handling (fr : Except Unit GatewayResponse) :
    (fr = Except.error () → fetchPendingMessages fr = []) ∧
    (∀ r, fr = Except.ok r → respOk r.status = false → fetchPendingMessages fr = []) ∧
    (∀ r, fr = Except.ok r → r.jsonBody = Except.error () → fetchPendingMessages fr = []) ∧
    (∀ r msgs, fr = Except.ok r → respOk r.status = true → r.jsonBody = Except.ok msgs →
      fetchPendingMessages fr = msgs) := by
  refine ⟨?_, ?_, ?_, ?_⟩
  · rintro rfl; rfl
  · rintro r rfl hok
    simp [fetchPendingMessages, hok]
  · rintro r rfl hjson
    by_cases hok : respOk r.status
    · simp [fetchPendingMessages, hok, hjson]
    · simp [fetchPendingMessages, hok]
  · rintro r msgs rfl hok hjson
    simp [fetchPendingMessages, hok, hjson]

/-- Witness for `fetchPendingMessages_error_handling`: a transport error
and an HTTP 500 response both yield the empty list. -/
theorem fetchPendingMessages_error_handling_witness :
    fetchPendingMessages (Except.error ()) = [] ∧
    fetchPendingMessages (Except.ok ⟨500, Except.ok []⟩) = [] :=
  ⟨(fetchPendingMessages_error_handling (Except.error ())).1 rfl,
    (fetchPendingMessages_error_handling (Except.ok ⟨500, Except.ok []⟩)).2.1
      ⟨500, Except.ok []⟩ rfl (by decide)⟩

/-! ## Theorems: SetupWaiter -/

/-- C8: the wait loop has exactly the three terminal outcomes, mapped to
exit codes 0/1/2.  A `ready` outcome is produced by a read that observed
status `ready` while the elapsed time was still below the timeout, exits 0
and reports the document's services; a `failed` outcome is produced by a
read that observed `failed` within the timeout, exits 1 and carries the
document's error string; the timeout outcome exits 2 and occurs only once
the elapsed time has reached the configured duration. -/
theorem wait_terminal_outcomes (reads : Nat → ReadResult) (clock : Nat → Nat)
    (start timeoutMs fuel k0 k : Nat) (o : WaitOutcome)
    (h : waitLoop reads clock start timeoutMs fuel k0 = some (k, o)) :
    (∀ svcs, o = WaitOutcome.readyOutcome svcs →
      clock k - start < timeoutMs ∧ exitCode o = 0 ∧
      ∃ d, reads k = ReadResult.doc d ∧ d.status = WaitStatus.ready ∧ svcs = d.services) ∧
    (∀ err, o = WaitOutcome.failedOutcome err →
      clock k - start < timeoutMs ∧ exitCode o = 1 ∧
      ∃ d, reads k = ReadResult.doc d ∧ d.status = WaitStatus.failed ∧ err = d.error) ∧
    (o = WaitOutcome.timedOut →
      timeoutMs ≤ clock k - start ∧ exitCode o = 2) := by
  induction fuel generalizing k0 with
  | zero =>
    unfold waitLoop at h
    split at h
    · simp at h
    · rename_i hc
      obtain ⟨rfl, rfl⟩ : k0 = k ∧ WaitOutcome.timedOut = o := by
        simpa using h
      refine ⟨?_, ?_, ?_⟩
      · intro svcs hs; simp at hs
      · intro err hs; simp at hs
      · intro _; exact ⟨Nat.le_of_not_lt hc, rfl⟩
  | succ fuel ih =>
    unfold waitLoop at h
    split at h
    · rename_i hc
      split at h
      · exact ih (k0 + 1) h
      · rename_i d hr
        split at h
        · rename_i hd
          obtain ⟨rfl, rfl⟩ : k0 = k ∧ WaitOutcome.readyOutcome d.services = o := by
            simpa using h
          refine ⟨?_, ?_, ?_⟩
          · intro svcs hs
            simp only [WaitOutcome.readyOutcome.injEq] at hs
            subst hs
            exact ⟨hc, rfl, d, hr, hd, rfl⟩
          · intro err hs; simp at hs
          · intro hs; simp at hs
        · rename_i hd
          obtain ⟨rfl, rfl⟩ : k0 = k ∧ WaitOutcome.failedOutcome d.error = o := by
            simpa using h
          refine ⟨?_, ?_, ?_⟩
          · intro svcs hs; simp at hs
          · intro err hs
            simp only [WaitOutcome.failedOutcome.injEq] at hs
            subst hs
            exact ⟨hc, rfl, d, hr, hd, rfl⟩
          · intro hs; simp at hs
        · exact ih (k0 + 1) h
    · rename_i hc
      obtain ⟨rfl, rfl⟩ : k0 = k ∧ WaitOutcome.timedOut = o := by
        simpa using h
      refine ⟨?_, ?_, ?_⟩
      · intro svcs hs; simp at hs
      · intro err hs; simp at hs
      · intro _; exact ⟨Nat.le_of_not_lt hc, rfl⟩

/-- Helper: the loop does decide within a fuel bound once the clock has
advanced past the deadline — each iteration sleeps, so `Date.now()` grows
by at least one per check. -/
theorem waitLoop_terminates (reads : Nat → ReadResult) (clock : Nat → Nat)
    (start timeoutMs : Nat) (hclock : ∀ j, start + j ≤ clock j) :
    ∀ fuel k, timeoutMs < fuel + k →
      (waitLoop reads clock start timeoutMs fuel k).isSome = true := by
  intro fuel
  induction fuel with
  | zero =>
    intro k hk
    have h1 : start + k ≤ clock k := hclock k
    have h2 : ¬ clock k - start < timeoutMs := by omega
    unfold waitLoop
    rw [if_neg h2]
    rfl
  | succ fuel ih =>
    intro k hk
    unfold waitLoop
    split
    · split
      · exact ih (k + 1) (by omega)
      · split
        · rfl
        · rfl
        · exact ih (k + 1) (by omega)
    · rfl

/-- Witness for `wait_terminal_outcomes`: a status file already at `ready`
with one postgres service, polled with a 5000 ms timeout, yields the ready
outcome at the first read, before the timeout, with exit code 0. -/
theorem wait_terminal_outcomes_witness :
    (0 : Nat) - 0 < 5000 ∧
    exitCode (WaitOutcome.readyOutcome [ServiceInstance.mk "postgres" "pg" 5432]) = 0 ∧
    ∃ d, (fun _ : Nat => ReadResult.doc
          (StatusDoc.mk WaitStatus.ready none none [ServiceInstance.mk "postgres" "pg" 5432])) 0 =
        ReadResult.doc d ∧
      d.status = WaitStatus.ready ∧
      [ServiceInstance.mk "postgres" "pg" 5432] = d.services :=
  (wait_terminal_outcomes
      (fun _ => ReadResult.doc
        (StatusDoc.mk WaitStatus.ready none none [ServiceInstance.mk "postgres" "pg" 5432]))
      (fun j => j) 0 5000 3 0 0
      (WaitOutcome.readyOutcome [ServiceInstance.mk "postgres" "pg" 5432])
      (by decide)).1
    [ServiceInstance.mk "postgres" "pg" 5432] rfl

/-! ## Theorems: AbortWatcher -/

/-- Helper: one tick preserves the watcher invariant — once `aborted`
holds the interval is cleared and exactly one callback and one unlink
attempt have happened; while `aborted` is false neither has happened. -/
theorem tick_inv (s : WatcherState) (f u : Bool)
    (h1 : s.aborted = true →
      s.watching = false ∧ s.callbackCount = 1 ∧ s.unlinkAttempts = 1)
    (h2 : s.aborted = false → s.callbackCount = 0 ∧ s.unlinkAttempts = 0) :
    ((tick s f u).aborted = true →
      (tick s f u).watching = false ∧ (tick s f u).callbackCount = 1 ∧
      (tick s f u).unlinkAttempts = 1) ∧
    ((tick s f u).aborted = false →
      (tick s f u).callbackCount = 0 ∧ (tick s f u).unlinkAttempts = 0) := by
  unfold tick
  by_cases hw : s.watching = false
  · rw [if_pos hw]; exact ⟨h1, h2⟩
  · rw [if_neg hw]
    by_cases ha : s.aborted = true
    · rw [if_pos ha]; exact ⟨h1, h2⟩
    · rw [if_neg ha]
      have ha' : s.aborted = false := Bool.eq_false_iff.mpr ha
      by_cases hf : f = true
      · rw [if_pos hf]
        obtain ⟨hc, hu⟩ := h2 ha'
        constructor
        · intro _
          exact ⟨rfl, by simp [hc], by simp [hu]⟩
        · intro hcontra
          simp at hcontra
      · rw [if_neg hf]; exact ⟨h1, h2⟩

/-- Helper: the watcher invariant holds after any run of ticks. -/
theorem runWatcher_inv (ticks : List (Bool × Bool)) :
    ∀ s : WatcherState,
      (s.aborted = true →
        s.watching = false ∧ s.callbackCount = 1 ∧ s.unlinkAttempts = 1) →
      (s.aborted = false → s.callbackCount = 0 ∧ s.unlinkAttempts = 0) →
      ((runWatcher s ticks).aborted = true →
        (runWatcher s ticks).watching = false ∧
        (runWatcher s ticks).callbackCount = 1 ∧
        (runWatcher s ticks).unlinkAttempts = 1) ∧
      ((runWatcher s ticks).aborted = false →
        (runWatcher s ticks).callbackCount = 0 ∧
        (runWatcher s ticks).unlinkAttempts = 0) := by
  induction ticks with
  | nil => intro s h1 h2; exact ⟨h1, h2⟩
  | cons t ts ih =>
    intro s h1 h2
    have hstep := tick_inv s t.1 t.2 h1 h2
    exact ih (tick s t.1 t.2) hstep.1 hstep.2

/-- Helper: one tick never resets the `aborted` flag. -/
theorem tick_aborted_mono (s : WatcherState) (f u : Bool) (h : s.aborted = true) :
    (tick s f u).aborted = true := by
  unfold tick
  by_cases hw : s.watching = false
  · rw [if_pos hw]; exact h
  · rw [if_neg hw]; rw [if_pos h]; exact h

/-- Helper: the `aborted` flag is never reset by further ticks. -/
theorem runWatcher_aborted_mono (ticks : List (Bool × Bool)) :
    ∀ s : WatcherState, s.aborted = true → (runWatcher s ticks).aborted = true := by
  induction ticks with
  | nil => intro s h; exact h
  | cons t ts ih =>
    intro s h
    exact ih (tick s t.1 t.2) (tick_aborted_mono s t.1 t.2 h)

/-- C9: after `start()`, over any sequence of polls (including the signal
file reappearing after deletion), the callback runs at most once; the
unlink is attempted exactly once per callback; `wasAborted` holds exactly
when the callback has run, and once set it remains set under any further
ticks; and a failing `unlinkSync` does not change the tick's effect, so a
deletion failure never prevents the callback. -/
theorem abortWatcher_at_most_once (ticks : List (Bool × Bool)) :
    (runWatcher startState ticks).callbackCount ≤ 1 ∧
    (runWatcher startState ticks).unlinkAttempts =
      (runWatcher startState ticks).callbackCount ∧
    ((runWatcher startState ticks).aborted = true ↔
      (runWatcher startState ticks).callbackCount = 1) ∧
    (∀ s fileExists, tick s fileExists true = tick s fileExists false) ∧
    (∀ more, (runWatcher startState ticks).aborted = true →
      (runWatcher (runWatcher startState ticks) more).aborted = true) := by
  have hinv := runWatcher_inv ticks startState
    (by simp [startState]) (by simp [startState])
  by_cases ha : (runWatcher startState ticks).aborted = true
  · obtain ⟨hw, hc, hu⟩ := hinv.1 ha
    refine ⟨by omega, by omega, ⟨fun _ => hc, fun _ => ha⟩, fun s f => rfl, ?_⟩
    intro more _
    exact runWatcher_aborted_mono more _ ha
  · simp only [Bool.not_eq_true] at ha
    obtain ⟨hc, hu⟩ := hinv.2 ha
    refine ⟨by omega, by omega, ⟨?_, ?_⟩, fun s f => rfl, ?_⟩
    · intro hcontra
      rw [ha] at hcontra
      simp at hcontra
    · intro hcontra
      omega
    · intro more hcontra
      rw [ha] at hcontra
      simp at hcontra

/-- Witness for `abortWatcher_at_most_once`: the file is detected at the
first tick (with the unlink failing) and recreated at the second tick; the
callback still ran only once, and `wasAborted` stays set over further
ticks. -/
theorem abortWatcher_at_most_once_witness :
    (runWatcher startState [(true, true), (true, false)]).callbackCount ≤ 1 ∧
    (runWatcher (runWatcher startState [(true, true), (true, false)])
      [(true, true)]).aborted = true :=
  ⟨(abortWatcher_at_most_once [(true, true), (true, false)]).1,
    (abortWatcher_at_most_once [(true, true), (true, false)]).2.2.2.2
      [(true, true)] (by decide)⟩

/-! ## Theorems: Coordinator loop -/

/-- Helper: unfolding `processBatch` when the abort flag read is true. -/
theorem processBatch_cons_pos (f : Nat → Bool) (m : QueuedMessage)
    (rest : List QueuedMessage) (t : Nat) (acc : List String) (hf : f t = true) :
    processBatch f (m :: rest) t acc = (t + 1, acc, []) := by
  simp only [processBatch]
  rw [if_pos hf]

/-- Helper: unfolding `processBatch` when the abort flag read is false. -/
theorem processBatch_cons_neg (f : Nat → Bool) (m : QueuedMessage)
    (rest : List QueuedMessage) (t : Nat) (acc : List String) (hf : ¬ f t = true) :
    processBatch f (m :: rest) t acc =
      ((processBatch f rest (t + 1) (acc ++ [m.id])).1,
       (processBatch f rest (t + 1) (acc ++ [m.id])).2.1,
       handleMsg m ++ (processBatch f rest (t + 1) (acc ++ [m.id])).2.2) := by
  simp only [processBatch]
  rw [if_neg hf]

/-- Helper: unfolding `pollLoop` on an exhausted fetch oracle, aborted. -/
theorem pollLoop_nil_pos (f : Nat → Bool) (t : Nat) (acc : List String)
    (hf : f t = true) : pollLoop f [] t acc = (acc, []) := by
  simp only [pollLoop]
  rw [if_pos hf]

/-- Helper: unfolding `pollLoop` on an exhausted fetch oracle, not aborted. -/
theorem pollLoop_nil_neg (f : Nat → Bool) (t : Nat) (acc : List String)
    (hf : ¬ f t = true) : pollLoop f [] t acc = (acc, [Action.systemMessage]) := by
  simp only [pollLoop]
  rw [if_neg hf]

/-- Helper: unfolding `pollLoop` when the loop-head abort read is true. -/
theorem pollLoop_cons_abort (f : Nat → Bool) (b : List QueuedMessage)
    (bs : List (List QueuedMessage)) (t : Nat) (acc : List String)
    (hf : f t = true) : pollLoop f (b :: bs) t acc = (acc, []) := by
  simp only [pollLoop]
  rw [if_pos hf]

/-- Helper: unfolding `pollLoop` on an empty fetched batch. -/
theorem pollLoop_cons_empty (f : Nat → Bool) (b : List QueuedMessage)
    (bs : List (List QueuedMessage)) (t : Nat) (acc : List String)
    (hf : ¬ f t = true) (hb : b.isEmpty = true) :
    pollLoop f (b :: bs) t acc = (acc, [Action.systemMessage]) := by
  simp only [pollLoop]
  rw [if_neg hf, if_pos hb]

/-- Helper: unfolding `pollLoop` on a non-empty fetched batch. -/
theorem pollLoop_cons_step (f : Nat → Bool) (b : List QueuedMessage)
    (bs : List (List QueuedMessage)) (t : Nat) (acc : List String)
    (hf : ¬ f t = true) (hb : ¬ b.isEmpty = true) :
    pollLoop f (b :: bs) t acc =
      ((pollLoop f bs (processBatch f b (t + 1) acc).1 (processBatch f b (t + 1) acc).2.1).1,
       Action.systemMessage ::
         ((processBatch f b (t + 1) acc).2.2 ++
           (pollLoop f bs (processBatch f b (t + 1) acc).1
             (processBatch f b (t + 1) acc).2.1).2)) := by
  simp only [pollLoop]
  rw [if_neg hf, if_neg hb]

/-- Helper: `seenOk` distributes over append, threading the delivered
accumulator. -/
theorem seenOk_append (l₁ l₂ : List Action) (s : List String) :
    seenOk (l₁ ++ l₂) s = (seenOk l₁ s && seenOk l₂ (deliveredAcc l₁ s)) := by
  induction l₁ generalizing s with
  | nil => simp [seenOk, deliveredAcc]
  | cons a rest ih =>
    cases a <;> simp [seenOk, deliveredAcc, ih, Bool.and_assoc]

/-- Helper: a trace with no `ackProcessed` action passes `seenOk` with any
accumulator. -/
theorem seenOk_of_no_processed (l : List Action) : ∀ s : List String,
    (∀ id, Action.ackProcessed id ∉ l) → seenOk l s = true := by
  induction l with
  | nil => intro s _; rfl
  | cons a rest ih =>
    intro s h
    have hrest : ∀ id, Action.ackProcessed id ∉ rest := by
      intro id hm
      exact h id (List.mem_cons_of_mem a hm)
    cases a
    case ackProcessed id => exact absurd (List.mem_cons_self _ _) (h id)
    all_goals (simp only [seenOk]; exact ih _ hrest)

/-- Helper: `deliveredAcc` only grows the accumulator. -/
theorem subset_deliveredAcc (l : List Action) : ∀ (s : List String) (x : String),
    x ∈ s → x ∈ deliveredAcc l s := by
  induction l with
  | nil => intro s x hx; exact hx
  | cons a rest ih =>
    intro s x hx
    cases a
    case ackDelivered id =>
      simp only [deliveredAcc]
      exact ih (id :: s) x (List.mem_cons_of_mem id hx)
    all_goals (simp only [deliveredAcc]; exact ih s x hx)

/-- Helper: ids delivered in a trace end up in the accumulator. -/
theorem mem_deliveredAcc_of_delivered (l : List Action) : ∀ (s : List String) (id : String),
    Action.ackDelivered id ∈ l → id ∈ deliveredAcc l s := by
  induction l with
  | nil => intro s id h; simp at h
  | cons a rest ih =>
    intro s id h
    rcases List.mem_cons.mp h with h1 | h2
    · cases h1
      simp only [deliveredAcc]
      exact subset_deliveredAcc rest _ id (List.mem_cons_self _ _)
    · cases a
      case ackDelivered id2 =>
        simp only [deliveredAcc]
        exact ih (id2 :: s) id h2
      all_goals (simp only [deliveredAcc]; exact ih s id h2)

/-- Helper: a pure `ackProcessed` block leaves the accumulator unchanged. -/
theorem deliveredAcc_processed_ids (ids : List String) : ∀ s : List String,
    deliveredAcc (ids.map Action.ackProcessed) s = s := by
  induction ids with
  | nil => intro s; rfl
  | cons i ids ih =>
    intro s
    simp only [List.map_cons, deliveredAcc]
    exact ih s

/-- Helper: the initial-batch `ackProcessed` block leaves the accumulator
unchanged. -/
theorem deliveredAcc_processed_map (ms : List QueuedMessage) : ∀ s : List String,
    deliveredAcc (ms.map fun m => Action.ackProcessed m.id) s = s := by
  induction ms with
  | nil => intro s; rfl
  | cons m ms ih =>
    intro s
    simp only [List.map_cons, deliveredAcc]
    exact ih s

/-- Helper: a block of `ackProcessed` actions passes `seenOk` when every
id is already in the accumulator. -/
theorem seenOk_processed_ids (ids : List String) : ∀ s : List String,
    (∀ id, id ∈ ids → id ∈ s) → seenOk (ids.map Action.ackProcessed) s = true := by
  induction ids with
  | nil => intro s _; rfl
  | cons i ids ih =>
    intro s h
    simp only [List.map_cons, seenOk, Bool.and_eq_true, decide_eq_true_eq]
    refine ⟨h i (List.mem_cons_self _ _), ih s ?_⟩
    intro id hm
    exact h id (List.mem_cons_of_mem i hm)

/-- Helper: the initial-batch `ackProcessed` block passes `seenOk` when
every message id is already in the accumulator. -/
theorem seenOk_processed_map (ms : List QueuedMessage) : ∀ s : List String,
    (∀ m, m ∈ ms → m.id ∈ s) → seenOk (ms.map fun m => Action.ackProcessed m.id) s = true := by
  induction ms with
  | nil => intro s _; rfl
  | cons m ms ih =>
    intro s h
    simp only [List.map_cons, seenOk, Bool.and_eq_true, decide_eq_true_eq]
    refine ⟨h m (List.mem_cons_self _ _), ih s ?_⟩
    intro m2 hm
    exact h m2 (List.mem_cons_of_mem m hm)

/-- Helper: the initial-batch delivered block contains no `ackProcessed`. -/
theorem no_processed_in_delivered_map (ms : List QueuedMessage) (id : String) :
    Action.ackProcessed id ∉ ms.map fun m => Action.ackDelivered m.id := by
  simp [List.mem_map]

/-- Helper: every initial message id is in the accumulator after its
delivered block. -/
theorem mem_deliveredAcc_delivered_map (ms : List QueuedMessage) (s : List String)
    (m : QueuedMessage) (hm : m ∈ ms) :
    m.id ∈ deliveredAcc (ms.map fun m => Action.ackDelivered m.id) s :=
  mem_deliveredAcc_of_delivered _ s m.id (List.mem_map_of_mem _ hm)

/-- Helper: the batch handler emits no `ackProcessed` action. -/
theorem processBatch_no_processed (f : Nat → Bool) (b : List QueuedMessage) :
    ∀ (t : Nat) (acc : List String) (id : String),
      Action.ackProcessed id ∉ (processBatch f b t acc).2.2 := by
  induction b with
  | nil => intro t acc id; simp [processBatch]
  | cons m rest ih =>
    intro t acc id
    by_cases hf : f t = true
    · rw [processBatch_cons_pos f m rest t acc hf]
      simp
    · rw [processBatch_cons_neg f m rest t acc hf]
      intro hmem
      rcases List.mem_append.mp hmem with h1 | h2
      · simp [handleMsg] at h1
      · exact ih (t + 1) (acc ++ [m.id]) id h2

/-- Helper: every id the batch handler adds to `processedMessageIds` was
delivered in its own trace (or was already accumulated). -/
theorem processBatch_acc_delivered (f : Nat → Bool) (b : List QueuedMessage) :
    ∀ (t : Nat) (acc : List String) (id : String),
      id ∈ (processBatch f b t acc).2.1 →
      id ∈ acc ∨ Action.ackDelivered id ∈ (processBatch f b t acc).2.2 := by
  induction b with
  | nil =>
    intro t acc id h
    left
    simpa [processBatch] using h
  | cons m rest ih =>
    intro t acc id h
    by_cases hf : f t = true
    · rw [processBatch_cons_pos f m rest t acc hf] at h ⊢
      exact Or.inl h
    · rw [processBatch_cons_neg f m rest t acc hf] at h ⊢
      rcases ih (t + 1) (acc ++ [m.id]) id h with h1 | h2
      · rcases List.mem_append.mp h1 with ha | hb
        · exact Or.inl ha
        · have hid : id = m.id := by simpa using hb
          subst hid
          right
          exact List.mem_append.mpr (Or.inl (by simp [handleMsg]))
      · right
        exact List.mem_append.mpr (Or.inr h2)

/-- Helper: the poll loop emits no `ackProcessed` action; the deferred
`markProcessed` calls happen only after it. -/
theorem pollLoop_no_processed (f : Nat → Bool) (bs : List (List QueuedMessage)) :
    ∀ (t : Nat) (acc : List String) (id : String),
      Action.ackProcessed id ∉ (pollLoop f bs t acc).2 := by
  induction bs with
  | nil =>
    intro t acc id
    by_cases hf : f t = true
    · rw [pollLoop_nil_pos f t acc hf]; simp
    · rw [pollLoop_nil_neg f t acc hf]; simp
  | cons b bs ih =>
    intro t acc id
    by_cases hf : f t = true
    · rw [pollLoop_cons_abort f b bs t acc hf]; simp
    · by_cases hb : b.isEmpty = true
      · rw [pollLoop_cons_empty f b bs t acc hf hb]; simp
      · rw [pollLoop_cons_step f b bs t acc hf hb]
        intro hmem
        rcases List.mem_cons.mp hmem with h1 | h2
        · simp at h1
        · rcases List.mem_append.mp h2 with h3 | h4
          · exact processBatch_no_processed f b (t + 1) acc id h3
          · exact ih _ _ id h4

/-- Helper: every id in the poll loop's final `processedMessageIds` was
delivered in the loop's own trace (or was already accumulated). -/
theorem pollLoop_acc_delivered (f : Nat → Bool) (bs : List (List QueuedMessage)) :
    ∀ (t : Nat) (acc : List String) (id : String),
      id ∈ (pollLoop f bs t acc).1 →
      id ∈ acc ∨ Action.ackDelivered id ∈ (pollLoop f bs t acc).2 := by
  induction bs with
  | nil =>
    intro t acc id h
    by_cases hf : f t = true
    · rw [pollLoop_nil_pos f t acc hf] at h ⊢; exact Or.inl h
    · rw [pollLoop_nil_neg f t acc hf] at h ⊢; exact Or.inl h
  | cons b bs ih =>
    intro t acc id h
    by_cases hf : f t = true
    · rw [pollLoop_cons_abort f b bs t acc hf] at h ⊢; exact Or.inl h
    · by_cases hb : b.isEmpty = true
      · rw [pollLoop_cons_empty f b bs t acc hf hb] at h ⊢; exact Or.inl h
      · rw [pollLoop_cons_step f b bs t acc hf hb] at h ⊢
        rcases ih _ _ id h with h1 | h2
        · rcases processBatch_acc_delivered f b (t + 1) acc id h1 with h3 | h4
          · exact Or.inl h3
          · right
            exact List.mem_cons.mpr (Or.inr (List.mem_append.mpr (Or.inl h4)))
        · right
          exact List.mem_cons.mpr (Or.inr (List.mem_append.mpr (Or.inr h2)))

/-- C5: in every modelled execution of `runAgent` — any initial batch, any
abort-flag history, any sequence of fetched batches — the trace never
contains a `markProcessed(id)` that is not preceded by a
`markDelivered(id)` for the same id. -/
theorem coordinator_acks_delivered_before_processed (init : List QueuedMessage)
    (f : Nat → Bool) (batches : List (List QueuedMessage)) :
    seenOk (runAgentTrace init f batches) [] = true := by
  unfold runAgentTrace
  by_cases hinit : init.isEmpty = true
  · rw [if_pos hinit]; rfl
  · rw [if_neg hinit]
    rw [seenOk_append, seenOk_append, seenOk_append, seenOk_append, seenOk_append,
      seenOk_append]
    simp only [Bool.and_eq_true]
    refine ⟨⟨⟨⟨⟨⟨rfl, ?_⟩, rfl⟩, ?_⟩, ?_⟩, ?_⟩, rfl⟩
    · exact seenOk_of_no_processed _ _ (fun id => no_processed_in_delivered_map init id)
    · refine seenOk_processed_map init _ ?_
      intro m hm
      apply mem_deliveredAcc_of_delivered
      exact List.mem_append.mpr (Or.inl (List.mem_append.mpr (Or.inr
        (List.mem_map_of_mem _ hm))))
    · exact seenOk_of_no_processed _ _ (fun id => pollLoop_no_processed f batches 0 [] id)
    · refine seenOk_processed_ids _ _ ?_
      intro id hid
      rcases pollLoop_acc_delivered f batches 0 [] id hid with h1 | h2
      · simp at h1
      · apply mem_deliveredAcc_of_delivered
        exact List.mem_append.mpr (Or.inr h2)

/-- Helper: the batch handler never calls `session.abort()`. -/
theorem processBatch_no_abortCall (f : Nat → Bool) (b : List QueuedMessage) :
    ∀ (t : Nat) (acc : List String),
      Action.sessionAbortCall ∉ (processBatch f b t acc).2.2 := by
  induction b with
  | nil => intro t acc; simp [processBatch]
  | cons m rest ih =>
    intro t acc
    by_cases hf : f t = true
    · rw [processBatch_cons_pos f m rest t acc hf]; simp
    · rw [processBatch_cons_neg f m rest t acc hf]
      intro hmem
      rcases List.mem_append.mp hmem with h1 | h2
      · simp [handleMsg] at h1
      · exact ih (t + 1) (acc ++ [m.id]) h2

/-- Helper: the poll loop never calls `session.abort()`. -/
theorem pollLoop_no_abortCall (f : Nat → Bool) (bs : List (List QueuedMessage)) :
    ∀ (t : Nat) (acc : List String),
      Action.sessionAbortCall ∉ (pollLoop f bs t acc).2 := by
  induction bs with
  | nil =>
    intro t acc
    by_cases hf : f t = true
    · rw [pollLoop_nil_pos f t acc hf]; simp
    · rw [pollLoop_nil_neg f t acc hf]; simp
  | cons b bs ih =>
    intro t acc
    by_cases hf : f t = true
    · rw [pollLoop_cons_abort f b bs t acc hf]; simp
    · by_cases hb : b.isEmpty = true
      · rw [pollLoop_cons_empty f b bs t acc hf hb]; simp
      · rw [pollLoop_cons_step f b bs t acc hf hb]
        intro hmem
        rcases List.mem_cons.mp hmem with h1 | h2
        · simp at h1
        · rcases List.mem_append.mp h2 with h3 | h4
          · exact processBatch_no_abortCall f b (t + 1) acc h3
          · exact ih _ _ h4

/-- Helper: `runAgent` never calls `session.abort()` from its message
handling; cancellation comes only from the AbortWatcher callback. -/
theorem runAgentTrace_no_abortCall (init : List QueuedMessage) (f : Nat → Bool)
    (batches : List (List QueuedMessage)) :
    Action.sessionAbortCall ∉ runAgentTrace init f batches := by
  unfold runAgentTrace
  by_cases hinit : init.isEmpty = true
  · rw [if_pos hinit]; simp
  · rw [if_neg hinit]
    intro hmem
    rcases List.mem_append.mp hmem with h6 | hG
    · rcases List.mem_append.mp h6 with h5 | hF
      · rcases List.mem_append.mp h5 with h4 | hE
        · rcases List.mem_append.mp h4 with h3 | hD
          · rcases List.mem_append.mp h3 with h2 | hp
            · rcases List.mem_append.mp h2 with hA | hB
              · simp at hA
              · simp at hB
            · simp at hp
          · simp at hD
        · exact pollLoop_no_abortCall f batches 0 [] hE
      · simp at hF
    · simp at hG

/-- C4 counterexample: in a concrete run whose poll loop fetches the single
message `m1` with behavior `abort`, the coordinator forwards `m1` to the
session as a `followUp` prompt, and no `session.abort()` call occurs
anywhere in the trace — the abort behavior did not trigger cancellation. -/
theorem abortMessage_forwarded_as_followUp :
    Action.promptMsg "m1" StreamBehavior.followUp ∈
      runAgentTrace [QueuedMessage.mk "m0" "hi" Behavior.followUp "s1" "alice" "t0"]
        (fun _ => false)
        [[QueuedMessage.mk "m1" "stop" Behavior.abort "s2" "bob" "t1"]] ∧
    Action.sessionAbortCall ∉
      runAgentTrace [QueuedMessage.mk "m0" "hi" Behavior.followUp "s1" "alice" "t0"]
        (fun _ => false)
        [[QueuedMessage.mk "m1" "stop" Behavior.abort "s2" "bob" "t1"]] := by
  decide

/-- C4 (amended): the coordinator does not special-case the `abort`
behavior: handling a fetched message with behavior `abort` marks it
delivered and forwards it to the session as a `followUp` prompt (only
`steer` maps to `steer`), and no point of the coordinator's message
handling calls `session.abort()` — cancellation is triggered only by the
file-based AbortWatcher. -/
theorem coordinator_never_cancels_session (m : QueuedMessage) (init : List QueuedMessage)
    (f : Nat → Bool) (batches : List (List QueuedMessage))
    (h : m.behavior = Behavior.abort) :
    handleMsg m = [Action.ackDelivered m.id,
      Action.promptMsg m.id StreamBehavior.followUp] ∧
    Action.sessionAbortCall ∉ runAgentTrace init f batches := by
  constructor
  · simp [handleMsg, streamingBehaviorOf, h]
  · exact runAgentTrace_no_abortCall init f batches

/-- Witness for `coordinator_never_cancels_session` at a concrete abort
message and run. -/
theorem coordinator_never_cancels_session_witness :
    handleMsg (QueuedMessage.mk "a" "x" Behavior.abort "s" "n" "t") =
      [Action.ackDelivered "a", Action.promptMsg "a" StreamBehavior.followUp] ∧
    Action.sessionAbortCall ∉ runAgentTrace [] (fun _ => false) [] :=
  coordinator_never_cancels_session (QueuedMessage.mk "a" "x" Behavior.abort "s" "n" "t")
    [] (fun _ => false) [] rfl

/-- C10: when the initial fetch returns no messages, `runAgent` returns
after logging: its trace contains no `agent:start` report, no session
creation, no prompt, and no delivered or processed acknowledgment for any
message id. -/
theorem runAgent_empty_queue_no_effects (f : Nat → Bool)
    (batches : List (List QueuedMessage)) :
    Action.agentStartEvent ∉ runAgentTrace [] f batches ∧
    Action.sessionCreated ∉ runAgentTrace [] f batches ∧
    Action.promptInitial ∉ runAgentTrace [] f batches ∧
    (∀ id, Action.ackDelivered id ∉ runAgentTrace [] f batches) ∧
    (∀ id, Action.ackProcessed id ∉ runAgentTrace [] f batches) := by
  simp [runAgentTrace]

/-- Witness for `runAgent_empty_queue_no_effects` at a concrete oracle. -/
theorem runAgent_empty_queue_no_effects_witness :
    Action.agentStartEvent ∉ runAgentTrace [] (fun _ => false) [[]] :=
  (runAgent_empty_queue_no_effects (fun _ => false) [[]]).1

end FlightRunner
